import Mathlib

/-!
Verification development for the schema-translation and dynamic tool-dispatch
core of a chat CLI that bridges MCP tool servers to the Gemini function-calling
API.  The definitions below are a shallow embedding of the TypeScript sources
`mcpToolRegistry.ts`, `mcpClientService.ts` and `geminiService.ts`: JSON values
are modelled by explicit inductive types, JavaScript truthiness tests are
spelled out case by case, thrown exceptions become explicit result
constructors, and the mutable session-wide registry becomes explicit state
passing.  The theorems at the end settle the listed behavioural properties.
-/

/-- Gemini `SchemaType` enum from `@google/generative-ai`. -/
inductive SchemaType where
  | STRING
  | NUMBER
  | INTEGER
  | BOOLEAN
  | ARRAY
  | OBJECT
deriving DecidableEq, Repr

/-- The `type` field of an MCP JSON-schema object: absent (`undefined`), a
single string, or an array whose elements may be `null`/`undefined` (modelled
as `none`) or type-name strings. -/
inductive TypeField where
  | absent
  | single (s : String)
  | list (ts : List (Option String))
deriving DecidableEq, Repr

/-- An MCP JSON schema node (`McpJsonSchema` in `mcpToolRegistry.ts`): either a
boolean literal schema or an object with the optional fields the translator
reads.  `enum` values are modelled post-`String(...)`-coercion as strings.
`items` is a single nested schema when present; a tuple-typed (array) `items`
is outside this universe (the source treats it, like any other non-object
`items`, by leaving the translated `items` unset). -/
inductive SchemaNode where
  | bool (b : Bool)
  | obj (type : TypeField)
        (description : Option String)
        (enum : Option (List String))
        (properties : Option (List (String × SchemaNode)))
        (items : Option SchemaNode)
        (required : Option (List String))

/-- A Gemini `Schema` value as the translator constructs it. -/
inductive GeminiSchema where
  | mk (type : SchemaType)
       (description : Option String)
       (enum : Option (List String))
       (items : Option GeminiSchema)
       (properties : Option (List (String × GeminiSchema)))
       (required : Option (List String))

def GeminiSchema.type : GeminiSchema → SchemaType
  | .mk t _ _ _ _ _ => t

def GeminiSchema.description : GeminiSchema → Option String
  | .mk _ d _ _ _ _ => d

def GeminiSchema.enum : GeminiSchema → Option (List String)
  | .mk _ _ e _ _ _ => e

def GeminiSchema.items : GeminiSchema → Option GeminiSchema
  | .mk _ _ _ i _ _ => i

def GeminiSchema.properties : GeminiSchema → Option (List (String × GeminiSchema))
  | .mk _ _ _ _ p _ => p

def GeminiSchema.required : GeminiSchema → Option (List String)
  | .mk _ _ _ _ _ r => r

/-- A Gemini `ObjectSchema` (`{type, properties, required}`) as returned by
`translateMcpSchemaToGeminiSchema`. -/
structure ObjectSchema where
  type : SchemaType
  properties : List (String × GeminiSchema)
  required : List String

/-- View an `ObjectSchema` as a general `GeminiSchema` (used when an object
schema is attached as an array's `items`). -/
def ObjectSchema.toSchema (o : ObjectSchema) : GeminiSchema :=
  .mk o.type none none none (some o.properties) (some o.required)

/-- The `switch` of `mcpSchemaTypeToGeminiSchemaType` on a single type-name
string.  `"null"` and any unrecognised string map to `undefined`. -/
def typeNameToGemini (s : String) : Option SchemaType :=
  if s = "string" then some SchemaType.STRING
  else if s = "number" then some SchemaType.NUMBER
  else if s = "integer" then some SchemaType.INTEGER
  else if s = "boolean" then some SchemaType.BOOLEAN
  else if s = "array" then some SchemaType.ARRAY
  else if s = "object" then some SchemaType.OBJECT
  else none

/-- `mcpSchemaTypeToGeminiSchemaType` (mcpToolRegistry.ts:30-48).  On an array
it takes the first non-null element and resolves that single type name (the
source's recursive call, which in this universe always lands in the
single-string case); an `undefined` type falls through the switch to
`undefined`. -/
def mcpSchemaTypeToGeminiSchemaType : TypeField → Option SchemaType
  | .absent => none
  | .single s => typeNameToGemini s
  | .list ts =>
    match (ts.filterMap id).head? with
    | some t => typeNameToGemini t
    | none => none

/-- JavaScript truthiness of the `items` field: absent and the boolean `false`
schema are falsy, everything else is truthy. -/
def itemsTruthy : Option SchemaNode → Bool
  | none => false
  | some (.bool false) => false
  | some _ => true

/-- `mcpPropSchema.description || `Parameter ${key}``: absent or empty
description falls back to the default. -/
def propDescription (key : String) : Option String → String
  | some d => if d = "" then "Parameter " ++ key else d
  | none => "Parameter " ++ key

mutual

/-- `translateMcpSchemaToGeminiSchema` (mcpToolRegistry.ts:95-113).  A boolean
schema yields no result (`undefined`); an object schema whose `type` is not
exactly the string `"object"` (absent, other string, or an array) yields the
empty-but-valid object schema; a `type: "object"` schema is translated
property by property, with `properties` and `required` defaulted. -/
def translateMcpSchemaToGeminiSchema : SchemaNode → Option ObjectSchema
  | .bool _ => none
  | .obj ty _ _ props _ req =>
    if ty = TypeField.single "object" then
      some { type := SchemaType.OBJECT,
             properties := (translateMcpPropertiesToGeminiProperties props).getD [],
             required := req.getD [] }
    else
      some { type := SchemaType.OBJECT, properties := [], required := [] }

/-- `translateMcpPropertiesToGeminiProperties` (mcpToolRegistry.ts:50-93):
`undefined` in, `undefined` out; otherwise each property is translated in
order. -/
def translateMcpPropertiesToGeminiProperties :
    Option (List (String × SchemaNode)) → Option (List (String × GeminiSchema))
  | none => none
  | some l => some (transPropList l)

/-- The `for (const key in mcpProperties)` loop body applied to each entry in
order; a property whose translation fails is dropped. -/
def transPropList : List (String × SchemaNode) → List (String × GeminiSchema)
  | [] => []
  | (k, v) :: rest =>
    match transProp k v with
    | none => transPropList rest
    | some g => (k, g) :: transPropList rest

/-- Translation of one property (the body of the loop in
`translateMcpPropertiesToGeminiProperties`): boolean property schemas and
unmappable types are skipped; `enum` is carried only on STRING; an ARRAY with
a truthy object-form `items` recurses through the top-level translator; an
OBJECT with truthy `properties` recurses into them and copies `required`
verbatim when truthy. -/
def transProp (key : String) : SchemaNode → Option GeminiSchema
  | .bool _ => none
  | .obj ty desc en props items req =>
    match mcpSchemaTypeToGeminiSchemaType ty with
    | none => none
    | some gty =>
      let gdesc := propDescription key desc
      let genum : Option (List String) :=
        match en with
        | some es => if gty = SchemaType.STRING then some es else none
        | none => none
      let itemsField : Option GeminiSchema :=
        if gty = SchemaType.ARRAY ∧ itemsTruthy items then
          match items with
          | some (.obj t2 d2 e2 p2 i2 r2) =>
            (translateMcpSchemaToGeminiSchema (.obj t2 d2 e2 p2 i2 r2)).map
              ObjectSchema.toSchema
          | _ => none
        else none
      let nestedProps : Option (List (String × GeminiSchema)) :=
        if gty = SchemaType.OBJECT ∧ props.isSome then
          translateMcpPropertiesToGeminiProperties props
        else none
      let nestedReq : Option (List String) :=
        if gty = SchemaType.OBJECT ∧ props.isSome then req else none
      some (.mk gty (some gdesc) genum itemsField nestedProps nestedReq)

end

/-- The character class `[A-Za-z0-9_]` of the sanitising regex. -/
def isAllowedChar (c : Char) : Bool :=
  ('a' ≤ c && c ≤ 'z') || ('A' ≤ c && c ≤ 'Z') || ('0' ≤ c && c ≤ '9') || c == '_'

/-- One step of `.replace(/[^a-zA-Z0-9_]/g, '_')`: a character outside the
class becomes an underscore. -/
def sanitizeChar (c : Char) : Char :=
  if isAllowedChar c then c else '_'

/-- Target function name derivation (mcpToolRegistry.ts:134-139): sanitize
server and tool name, join them with an underscore, and truncate the result to
63 characters when longer. -/
def deriveGeminiFunctionName (mcpServerName mcpToolName : String) : String :=
  let n := mcpServerName.data.map sanitizeChar ++ '_' :: mcpToolName.data.map sanitizeChar
  String.mk (if n.length > 63 then n.take 63 else n)

/-- A discovered MCP tool (`McpToolSchema`), restricted to the fields the
registry reads.  `annotationsTitle` stands for `(mcpTool.annotations as
any)?.title`, coalesced from a missing `annotations` object. -/
structure McpTool where
  name : String
  description : Option String
  inputSchema : Option SchemaNode
  annotationsTitle : Option String

/-- A Gemini `FunctionDeclaration` as the registry builds it. -/
structure FunctionDeclaration where
  name : String
  description : String
  parameters : Option ObjectSchema

/-- `mcpTool.description || defaultText` with the default text built from the
tool name, server name and optional annotations title (`title || ''`). -/
def toolDescription (mcpTool : McpTool) (mcpServerName : String) : String :=
  let defaultText := "Calls " ++ mcpTool.name ++ " on MCP server " ++ mcpServerName ++ ". " ++
    (mcpTool.annotationsTitle.getD "")
  match mcpTool.description with
  | some d => if d = "" then defaultText else d
  | none => defaultText

/-- `mcpToolToGeminiFunction` (mcpToolRegistry.ts:115-152).  The gate at lines
117-120 (`!inputSchema || typeof inputSchema !== 'object'`) rejects an absent
and also a boolean `inputSchema` (a boolean is not `typeof 'object'`, so the
dedicated boolean branch at line 124 can never fire); line 129 rejects any
object schema whose `type` is not the string `"object"` (including an array
`type`).  Only then is the Gemini name derived and the schema translated. -/
def mcpToolToGeminiFunction (mcpTool : McpTool) (mcpServerName : String) :
    Option FunctionDeclaration :=
  match mcpTool.inputSchema with
  | none => none
  | some (.bool _) => none
  | some (.obj ty d e p i r) =>
    if ty = TypeField.single "object" then
      let geminiFunctionName := deriveGeminiFunctionName mcpServerName mcpTool.name
      match translateMcpSchemaToGeminiSchema (.obj ty d e p i r) with
      | none => none
      | some geminiParameters =>
        some { name := geminiFunctionName,
               description := toolDescription mcpTool mcpServerName,
               parameters := some geminiParameters }
    else none

/-- One text content part of a tool-call result. -/
structure CallToolContent where
  type : String
  text : String

/-- The shape of a `CallToolResponse` as far as this client constructs or
forwards it.  `toolCallId` and `isError` are optional because a success
response from the remote server need not carry them. -/
structure CallToolResponse where
  toolCallId : Option String
  isError : Option Bool
  content : List CallToolContent

/-- What the remote `client.callTool` does once a request is attempted:
either it resolves with a response or it rejects with an error message. -/
inductive RemoteCallOutcome where
  | ok (r : CallToolResponse)
  | err (message : String)

/-- The observable outcome of `callMcpTool`: the method either throws
(`raised`) or returns a response (`returned`). -/
inductive CallResult where
  | raised (message : String)
  | returned (r : CallToolResponse)

/-- `GenericMcpClient.callMcpTool` (mcpClientService.ts:65-85): throws when not
connected; otherwise forwards the remote response, and converts a remote
rejection into a synthesized error-shaped result whose `toolCallId` is
`"error-" + Date.now()` (`now` stands for the timestamp). -/
def callMcpTool (connected : Bool) (mcpToolName : String) (now : Nat)
    (remote : RemoteCallOutcome) : CallResult :=
  if !connected then
    .raised "Not connected to MCP server. Cannot call tool."
  else
    match remote with
    | .ok r => .returned r
    | .err msg =>
      .returned { toolCallId := some ("error-" ++ toString now),
                  isError := some true,
                  content := [{ type := "text",
                                text := "Error calling MCP tool " ++ mcpToolName ++ ": " ++ msg }] }

/-- What the remote `client.listTools` does once a request is attempted:
resolves with a response whose `tools` field may be absent, or rejects. -/
inductive ListRemoteOutcome where
  | ok (tools : Option (List McpTool))
  | err

/-- `GenericMcpClient.listMcpTools` (mcpClientService.ts:91-104).  The second
component records whether a network request was attempted: not connected means
`null` with no request; a remote failure means `null`; success returns
`response.tools || []`. -/
def listMcpTools (connected : Bool) (remote : ListRemoteOutcome) :
    Option (List McpTool) × Bool :=
  if !connected then (none, false)
  else
    match remote with
    | .err => (none, true)
    | .ok ts => (some (ts.getD []), true)

/-- A configured MCP server (`McpServerConfig` in `configService.ts`,
restricted to the fields discovery reads). -/
structure McpServerConfig where
  name : String
  url : String

/-- One registry entry (`DynamicGeminiToolMapping`). -/
structure DynamicGeminiToolMapping where
  geminiFunctionDeclaration : FunctionDeclaration
  mcpServerName : String
  mcpServerUrl : String
  mcpToolName : String

/-- The inner `for (const mcpTool of mcpTools)` loop of
`discoverAndMapAllMcpTools`: each tool that maps successfully contributes a
registry entry, in order; a tool that fails to map contributes nothing. -/
def mapServerTools (mcpServerName mcpServerUrl : String) :
    List McpTool → List DynamicGeminiToolMapping
  | [] => []
  | t :: rest =>
    match mcpToolToGeminiFunction t mcpServerName with
    | some d =>
      { geminiFunctionDeclaration := d,
        mcpServerName := mcpServerName,
        mcpServerUrl := mcpServerUrl,
        mcpToolName := t.name } :: mapServerTools mcpServerName mcpServerUrl rest
    | none => mapServerTools mcpServerName mcpServerUrl rest

/-- The observable outcome of contacting one server during discovery:
`connect()` threw, or it succeeded and `listMcpTools` returned `null` or a
tool list. -/
inductive ServerOutcome where
  | connectError
  | listResult (tools : Option (List McpTool))

/-- One iteration of the outer server loop of `discoverAndMapAllMcpTools`
(mcpToolRegistry.ts:158-193): a connect error or a `null`/empty listing
contributes nothing; otherwise every listed tool is mapped and appended. -/
def discoverStep (acc : List DynamicGeminiToolMapping)
    (server : McpServerConfig × ServerOutcome) : List DynamicGeminiToolMapping :=
  match server.2 with
  | .connectError => acc
  | .listResult none => acc
  | .listResult (some ts) =>
    if ts.length > 0 then acc ++ mapServerTools server.1.name server.1.url ts else acc

/-- The registry entries one server contributes to a discovery pass. -/
def serverContribution (server : McpServerConfig × ServerOutcome) :
    List DynamicGeminiToolMapping :=
  match server.2 with
  | .connectError => []
  | .listResult none => []
  | .listResult (some ts) =>
    if ts.length > 0 then mapServerTools server.1.name server.1.url ts else []

/-- `discoverAndMapAllMcpTools` (mcpToolRegistry.ts:154-195) as a state
transformer on the session table `currentSessionTools`: the previous table is
the first argument and is discarded by the `currentSessionTools = []` reset at
line 156 before the servers, paired with their observed outcomes, are
processed in order. -/
def discoverAndMapAllMcpTools (_previousTable : List DynamicGeminiToolMapping)
    (servers : List (McpServerConfig × ServerOutcome)) :
    List DynamicGeminiToolMapping :=
  servers.foldl discoverStep []

/-- `getDynamicallyGeneratedGeminiFunctionDeclarations`
(mcpToolRegistry.ts:197-199). -/
def getDynamicallyGeneratedGeminiFunctionDeclarations
    (currentSessionTools : List DynamicGeminiToolMapping) : List FunctionDeclaration :=
  currentSessionTools.map (fun tool => tool.geminiFunctionDeclaration)

/-- `findDynamicallyMappedTool` (mcpToolRegistry.ts:201-203): first-match
lookup by Gemini function name in the session table. -/
def findDynamicallyMappedTool (currentSessionTools : List DynamicGeminiToolMapping)
    (geminiFunctionName : String) : Option DynamicGeminiToolMapping :=
  currentSessionTools.find? (fun tool => tool.geminiFunctionDeclaration.name == geminiFunctionName)

/-- A function call requested by the model (`{name, args}`); the argument
payload is opaque to the dispatcher and forwarded as-is. -/
structure FunctionCall where
  name : String
  args : String

/-- The `response` field of a synthesized function-response part: either an
`{error: ...}` object built by the dispatcher or a forwarded tool result. -/
inductive FunctionResponsePayload where
  | error (msg : String)
  | result (r : CallToolResponse)

/-- One `{functionResponse: {name, response}}` part sent back to the model. -/
structure FunctionResponsePart where
  name : String
  response : FunctionResponsePayload

/-- The observable outcome of the connect-and-call sequence for one resolved
call (geminiService.ts:132-159): the fresh client's `connect` or the call threw
(`exn`, caught by the surrounding `try`), or a `CallToolResponse` came back
(which itself may be error-shaped). -/
inductive ToolExecOutcome where
  | ok (r : CallToolResponse)
  | exn (message : String)

/-- The body of the `for (const call of functionCalls)` loop
(geminiService.ts:116-160) for one requested call: an unregistered name yields
a synthesized error part; a registered one is executed and either its result
is forwarded or the caught exception becomes an error part. -/
def processOneCall (currentSessionTools : List DynamicGeminiToolMapping)
    (exec : FunctionCall → ToolExecOutcome) (call : FunctionCall) :
    FunctionResponsePart :=
  match findDynamicallyMappedTool currentSessionTools call.name with
  | none =>
    { name := call.name,
      response := .error ("Function " ++ call.name ++ " is not implemented or mapped.") }
  | some mappedTool =>
    match exec call with
    | .ok r => { name := call.name, response := .result r }
    | .exn m =>
      { name := call.name,
        response := .error ("Error executing MCP tool " ++ mappedTool.mcpToolName ++ ": " ++ m) }

/-- The whole per-round tool loop: every requested call produces exactly one
response part, in request order. -/
def processFunctionCalls (currentSessionTools : List DynamicGeminiToolMapping)
    (exec : FunctionCall → ToolExecOutcome) :
    List FunctionCall → List FunctionResponsePart
  | [] => []
  | c :: rest =>
    processOneCall currentSessionTools exec c ::
      processFunctionCalls currentSessionTools exec rest

/-- The parts of a model response the dispatcher inspects:
`response.functionCalls()` (absent or a list) and `response.text()` (possibly
absent). -/
structure ResponseContent where
  functionCalls : Option (List FunctionCall)
  text : Option String

/-- The outbound message of a round: the processed user input on the first
round, or the previous round's tool-response parts. -/
inductive OutboundMessage where
  | userText (s : String)
  | toolResponses (parts : List FunctionResponsePart)

/-- The text branch of the loop (geminiService.ts:163-172): missing text gives
the empty-response fallback, otherwise the text is returned. -/
def responseTextResult (response : ResponseContent) : String :=
  match response.text with
  | none => "I received a response, but it was empty."
  | some t => t

def noResponseMessage : String := "I'm sorry, I couldn't get a response."

def exhaustedRoundsMessage : String :=
  "I tried several times, but I'm having trouble completing your request with tools."

/-- `maxAttempts` (geminiService.ts:97), the fixed bound on tool-calling
rounds within one user turn. -/
def maxAttempts : Nat := 5

/-- The `while (attempt < maxAttempts)` loop of `sendMessageToGemini`
(geminiService.ts:99-175).  `respond` abstracts `chatSession.sendMessage`: for
the given (1-based) attempt number and outbound message it yields the model
response, or `none` when the response content is missing.  `exec` abstracts
the per-round remote tool execution.  A round with at least one requested
function call turns the collected response parts into the next outbound
message; otherwise the text branch ends the turn; falling out of the loop
yields the exhausted-rounds fallback. -/
def sendLoop (currentSessionTools : List DynamicGeminiToolMapping)
    (respond : Nat → OutboundMessage → Option ResponseContent)
    (exec : Nat → FunctionCall → ToolExecOutcome)
    (msg : OutboundMessage) (attempt : Nat) : String :=
  if _h : attempt < maxAttempts then
    match respond (attempt + 1) msg with
    | none => noResponseMessage
    | some response =>
      match response.functionCalls with
      | some functionCalls =>
        if functionCalls.length > 0 then
          sendLoop currentSessionTools respond exec
            (.toolResponses
              (processFunctionCalls currentSessionTools (exec (attempt + 1)) functionCalls))
            (attempt + 1)
        else responseTextResult response
      | none => responseTextResult response
  else exhaustedRoundsMessage
termination_by maxAttempts - attempt
decreasing_by omega

/-- `sendMessageToGemini` (geminiService.ts:88-176) over one user turn.  The
initial outbound message is the already-processed user input (the input parser
is an external collaborator); the attempt counter starts at 0. -/
def sendMessageToGemini (currentSessionTools : List DynamicGeminiToolMapping)
    (respond : Nat → OutboundMessage → Option ResponseContent)
    (exec : Nat → FunctionCall → ToolExecOutcome)
    (userMessage : OutboundMessage) : String :=
  sendLoop currentSessionTools respond exec userMessage 0

/-! ## Helper lemmas -/

/-- Sanitisation always lands in the `[A-Za-z0-9_]` class: an allowed
character is kept, everything else becomes the (allowed) underscore. -/
theorem isAllowedChar_sanitizeChar (c : Char) : isAllowedChar (sanitizeChar c) = true := by
  unfold sanitizeChar
  by_cases h : isAllowedChar c
  · simp [h]
  · simp [h]; decide

/-- Translated property lists never invent keys: every key of the output list
is a key of the input list. -/
theorem transPropList_keys_subset (l : List (String × SchemaNode)) :
    (transPropList l).map Prod.fst ⊆ l.map Prod.fst := by
  induction l with
  | nil => simp [transPropList]
  | cons kv rest ih =>
    obtain ⟨k, v⟩ := kv
    simp only [transPropList]
    cases h : transProp k v with
    | none =>
      simp only [h, List.map_cons]
      exact ih.trans (List.subset_cons_self _ _)
    | some g =>
      simp only [h, List.map_cons]
      exact List.cons_subset_cons _ ih

/-! ## Claim theorems -/

/-- C1, counterexample: on the boolean schema `true`,
`translateMcpSchemaToGeminiSchema` does not return the empty-but-valid object
schema — it returns no result at all (`undefined`), contradicting the claim
that every boolean SchemaNode yields `{type: OBJECT, properties: {}, required:
[]}`. -/
theorem c1_counterexample :
    translateMcpSchemaToGeminiSchema (SchemaNode.bool true) ≠
      some { type := SchemaType.OBJECT, properties := [], required := [] } := by
  simp [translateMcpSchemaToGeminiSchema]

/-- C1, amended: a boolean SchemaNode makes `translateMcpSchemaToGeminiSchema`
return no result (`undefined`, the tool-level callers then skip the tool),
while an object SchemaNode whose `type` is not the string `"object"` (missing,
a different string, or an array) yields the empty-but-valid object schema
`{type: OBJECT, properties: {}, required: []}` rather than failing. -/
theorem c1_nonobject_schema_translation :
    (∀ b : Bool, translateMcpSchemaToGeminiSchema (SchemaNode.bool b) = none) ∧
    (∀ (ty : TypeField) (d : Option String) (e : Option (List String))
        (p : Option (List (String × SchemaNode))) (i : Option SchemaNode)
        (r : Option (List String)),
      ty ≠ TypeField.single "object" →
      translateMcpSchemaToGeminiSchema (SchemaNode.obj ty d e p i r) =
        some { type := SchemaType.OBJECT, properties := [], required := [] }) := by
  constructor
  · intro b; rfl
  · intro ty d e p i r h
    simp [translateMcpSchemaToGeminiSchema, h]

/-- C1 witness: a top-level object schema whose `type` is `"string"` is
translated to the empty-but-valid object schema. -/
theorem c1_nonobject_schema_translation_witness :
    translateMcpSchemaToGeminiSchema
      (SchemaNode.obj (TypeField.single "string") none none none none none) =
      some { type := SchemaType.OBJECT, properties := [], required := [] } :=
  c1_nonobject_schema_translation.2 (TypeField.single "string") none none none none none
    (by decide)

/-- C5: the derived Gemini function name is a deterministic function of the
`(serverName, toolName)` pair (it is a pure function of exactly those two
arguments), its length is at most 63, it is nonempty, and every one of its
characters lies in `[A-Za-z0-9_]`. -/
theorem c5_name_derivation (mcpServerName mcpToolName : String) :
    (deriveGeminiFunctionName mcpServerName mcpToolName).length ≤ 63 ∧
    0 < (deriveGeminiFunctionName mcpServerName mcpToolName).length ∧
    ∀ c ∈ (deriveGeminiFunctionName mcpServerName mcpToolName).data,
      isAllowedChar c = true := by
  unfold deriveGeminiFunctionName
  set n := mcpServerName.data.map sanitizeChar ++ '_' :: mcpToolName.data.map sanitizeChar
    with hn
  have hlen1 : 0 < n.length := by
    rw [hn]; simp
  have hmem : ∀ c ∈ n, isAllowedChar c = true := by
    intro c hc
    rw [hn] at hc
    rcases List.mem_append.1 hc with h | h
    · obtain ⟨c0, _, rfl⟩ := List.mem_map.1 h
      exact isAllowedChar_sanitizeChar c0
    · rcases List.mem_cons.1 h with rfl | h
      · decide
      · obtain ⟨c0, _, rfl⟩ := List.mem_map.1 h
        exact isAllowedChar_sanitizeChar c0
  by_cases hgt : n.length > 63
  · have hdata : (String.mk (if n.length > 63 then n.take 63 else n)).data = n.take 63 := by
      simp [hgt]
    have hl : (String.mk (if n.length > 63 then n.take 63 else n)).length =
        (n.take 63).length := by
      simp [String.length, hgt]
    refine ⟨?_, ?_, ?_⟩
    · rw [hl]; simp
    · rw [hl]; simp; omega
    · intro c hc
      rw [hdata] at hc
      exact hmem c (List.take_subset 63 n hc)
  · have hdata : (String.mk (if n.length > 63 then n.take 63 else n)).data = n := by
      simp [hgt]
    have hl : (String.mk (if n.length > 63 then n.take 63 else n)).length = n.length := by
      simp [String.length, hgt]
    refine ⟨?_, ?_, ?_⟩
    · rw [hl]; omega
    · rw [hl]; exact hlen1
    · intro c hc
      rw [hdata] at hc
      exact hmem c hc

/-- C7: for every object-typed SchemaNode translated at the top level, the key
set of the resulting `properties` mapping is a subset of the key set of the
input's `properties` mapping — properties may be dropped but never invented. -/
theorem c7_properties_keys_subset (d : Option String) (e : Option (List String))
    (props : Option (List (String × SchemaNode))) (i : Option SchemaNode)
    (r : Option (List String)) :
    ∃ o : ObjectSchema,
      translateMcpSchemaToGeminiSchema
        (SchemaNode.obj (TypeField.single "object") d e props i r) = some o ∧
      o.properties.map Prod.fst ⊆ (props.getD []).map Prod.fst := by
  refine ⟨_, rfl, ?_⟩
  cases props with
  | none => simp [translateMcpPropertiesToGeminiProperties]
  | some l =>
    simpa [translateMcpPropertiesToGeminiProperties] using transPropList_keys_subset l

/-- C10: the translator copies `required` verbatim — at the top level it is the
input's list defaulted to empty, and on a nested object-typed property (whose
`properties` field is present, the condition the source's branch tests) a
present `required` list is copied unchanged — with no filtering against the
surviving properties; consequently the concrete input
`{type:"object", properties:{a: true}, required:["a"]}` translates to a schema
whose `required` contains `"a"` even though its `properties` has no key `"a"`
(the boolean property was dropped). -/
theorem c10_required_copied_verbatim :
    (∀ (d : Option String) (e : Option (List String))
        (props : Option (List (String × SchemaNode))) (i : Option SchemaNode)
        (req : Option (List String)),
      ∃ o : ObjectSchema,
        translateMcpSchemaToGeminiSchema
          (SchemaNode.obj (TypeField.single "object") d e props i req) = some o ∧
        o.required = req.getD []) ∧
    (∀ (key : String) (d : Option String) (e : Option (List String))
        (l : List (String × SchemaNode)) (i : Option SchemaNode) (req : List String),
      ∃ g : GeminiSchema,
        transProp key (SchemaNode.obj (TypeField.single "object") d e (some l) i (some req)) =
          some g ∧
        g.required = some req) ∧
    (∃ o : ObjectSchema,
      translateMcpSchemaToGeminiSchema
        (SchemaNode.obj (TypeField.single "object") none none
          (some [("a", SchemaNode.bool true)]) none (some ["a"])) = some o ∧
      "a" ∈ o.required ∧ "a" ∉ o.properties.map Prod.fst) := by
  refine ⟨?_, ?_, ?_⟩
  · intro d e props i req
    exact ⟨_, rfl, rfl⟩
  · intro key d e l i req
    refine ⟨_, rfl, ?_⟩
    simp [GeminiSchema.required]
  · refine ⟨_, rfl, ?_, ?_⟩ <;> simp [translateMcpPropertiesToGeminiProperties, transPropList,
      transProp]

/-- C2: `callMcpTool` raises (rather than returning a result) exactly when
invoked without a prior successful connect, and for every in-flight
remote/transport failure after connect it returns — never raises — a
synthesized error-shaped result whose identifier field (`toolCallId` in the
source) is `"error-" + timestamp`, whose `isError` is `true` and whose content
is one textual error message; a remote success is forwarded unchanged. -/
theorem c2_callTool_error_asymmetry :
    (∀ (mcpToolName : String) (now : Nat) (remote : RemoteCallOutcome),
      callMcpTool false mcpToolName now remote =
        .raised "Not connected to MCP server. Cannot call tool.") ∧
    (∀ (mcpToolName : String) (now : Nat) (msg : String),
      callMcpTool true mcpToolName now (.err msg) =
        .returned { toolCallId := some ("error-" ++ toString now),
                    isError := some true,
                    content := [{ type := "text",
                                  text := "Error calling MCP tool " ++ mcpToolName ++
                                    ": " ++ msg }] }) ∧
    (∀ (mcpToolName : String) (now : Nat) (r : CallToolResponse),
      callMcpTool true mcpToolName now (.ok r) = .returned r) :=
  ⟨fun _ _ _ => rfl, fun _ _ _ => rfl, fun _ _ _ => rfl⟩

/-- C3: a discovered tool whose `inputSchema` is absent, is a boolean schema,
or is an object schema whose `type` is not `"object"` is never turned into a
function declaration, and during discovery it contributes no registry entry at
all — mapping a tool list starting with such a tool equals mapping the rest of
the list. -/
theorem c3_gated_tools_skipped (t : McpTool) (server url : String)
    (hgate : t.inputSchema = none ∨
      (∃ b, t.inputSchema = some (SchemaNode.bool b)) ∨
      (∃ ty d e p i r, t.inputSchema = some (SchemaNode.obj ty d e p i r) ∧
        ty ≠ TypeField.single "object")) :
    mcpToolToGeminiFunction t server = none ∧
    ∀ rest, mapServerTools server url (t :: rest) = mapServerTools server url rest := by
  have hnone : mcpToolToGeminiFunction t server = none := by
    rcases hgate with h | ⟨b, h⟩ | ⟨ty, d, e, p, i, r, h, hty⟩
    · simp [mcpToolToGeminiFunction, h]
    · simp [mcpToolToGeminiFunction, h]
    · simp [mcpToolToGeminiFunction, h, hty]
  exact ⟨hnone, fun rest => by simp [mapServerTools, hnone]⟩

/-- C3 witness: a tool without any `inputSchema` is skipped and registers
nothing. -/
theorem c3_gated_tools_skipped_witness :
    mcpToolToGeminiFunction (⟨"t", none, none, none⟩ : McpTool) "s" = none ∧
    mapServerTools "s" "u" [(⟨"t", none, none, none⟩ : McpTool)] = [] :=
  ⟨(c3_gated_tools_skipped _ "s" "u" (Or.inl rfl)).1,
   ((c3_gated_tools_skipped _ "s" "u" (Or.inl rfl)).2 []).trans rfl⟩

/-- C8: `listMcpTools` returns `null` exactly when it could not list — when
not connected it returns `null` without attempting the network request (the
second component records whether a request was attempted), and a remote
listing failure also yields `null`; a connected server reporting zero tools
yields the empty list, not `null`. -/
theorem c8_listTools_null_semantics :
    (∀ remote, listMcpTools false remote = (none, false)) ∧
    (listMcpTools true .err = (none, true)) ∧
    (∀ ts, listMcpTools true (.ok ts) = (some (ts.getD []), true)) ∧
    (listMcpTools true (.ok (some [])) = (some [], true)) ∧
    (∀ (connected : Bool) (remote : ListRemoteOutcome),
      (listMcpTools connected remote).1 = none ↔
        connected = false ∨ remote = .err) := by
  refine ⟨fun _ => rfl, rfl, fun _ => rfl, rfl, ?_⟩
  intro connected remote
  cases connected <;> cases remote <;> simp [listMcpTools]

/-- One server's fold step appends exactly that server's contribution. -/
theorem discoverStep_eq_append (acc : List DynamicGeminiToolMapping)
    (s : McpServerConfig × ServerOutcome) :
    discoverStep acc s = acc ++ serverContribution s := by
  obtain ⟨cfg, outcome⟩ := s
  cases outcome with
  | connectError => simp [discoverStep, serverContribution]
  | listResult ts =>
    cases ts with
    | none => simp [discoverStep, serverContribution]
    | some l =>
      by_cases h : l.length > 0 <;> simp [discoverStep, serverContribution, h]

/-- Folding the discovery step accumulates the per-server contributions in
order. -/
theorem foldl_discoverStep (servers : List (McpServerConfig × ServerOutcome))
    (acc : List DynamicGeminiToolMapping) :
    servers.foldl discoverStep acc = acc ++ (servers.map serverContribution).flatten := by
  induction servers generalizing acc with
  | nil => simp
  | cons s rest ih =>
    simp [List.foldl_cons, discoverStep_eq_append, ih, List.append_assoc]

/-- C9: a discovery pass fully replaces the session table — whatever the
previous table held, the table afterwards is exactly the concatenation of the
per-server contributions built during this pass (so it does not depend on the
previous table at all), and it is empty when the server list is empty or when
every server of the pass fails to connect. -/
theorem c9_discovery_replaces_table :
    (∀ (prev : List DynamicGeminiToolMapping)
        (servers : List (McpServerConfig × ServerOutcome)),
      discoverAndMapAllMcpTools prev servers = (servers.map serverContribution).flatten) ∧
    (∀ prev, discoverAndMapAllMcpTools prev [] = []) ∧
    (∀ (prev : List DynamicGeminiToolMapping) (cfgs : List McpServerConfig),
      discoverAndMapAllMcpTools prev
        (cfgs.map (fun c => (c, ServerOutcome.connectError))) = []) := by
  refine ⟨?_, ?_, ?_⟩
  · intro prev servers
    simpa using foldl_discoverStep servers []
  · intro prev; rfl
  · intro prev cfgs
    have h : ∀ c : McpServerConfig,
        serverContribution (c, ServerOutcome.connectError) = [] := fun _ => rfl
    calc discoverAndMapAllMcpTools prev (cfgs.map (fun c => (c, ServerOutcome.connectError)))
        = ((cfgs.map (fun c => (c, ServerOutcome.connectError))).map
            serverContribution).flatten := by
          simpa using foldl_discoverStep (cfgs.map (fun c => (c, ServerOutcome.connectError))) []
      _ = [] := by simp [h]

/-- C6: the per-round tool loop never aborts on an unresolvable name — every
requested call yields exactly one response part, in request order, and a call
whose function name is not registered yields the synthesized
`{functionResponse: {name, response: {error: ...}}}` entry while the remaining
calls of the round are still processed. -/
theorem c6_unmapped_call_synthesized_error
    (currentSessionTools : List DynamicGeminiToolMapping)
    (exec : FunctionCall → ToolExecOutcome) (calls : List FunctionCall) :
    processFunctionCalls currentSessionTools exec calls =
      calls.map (processOneCall currentSessionTools exec) ∧
    (∀ call : FunctionCall,
      findDynamicallyMappedTool currentSessionTools call.name = none →
      processOneCall currentSessionTools exec call =
        { name := call.name,
          response := .error ("Function " ++ call.name ++
            " is not implemented or mapped.") }) := by
  constructor
  · induction calls with
    | nil => rfl
    | cons c rest ih => simp [processFunctionCalls, ih]
  · intro call hfind
    simp [processOneCall, hfind]

/-- C6 witness: with an empty registry, the call `f` yields the synthesized
error part. -/
theorem c6_unmapped_call_synthesized_error_witness :
    processOneCall [] (fun _ => ToolExecOutcome.exn "x") ⟨"f", "a"⟩ =
      { name := "f",
        response := .error ("Function " ++ "f" ++ " is not implemented or mapped.") } :=
  (c6_unmapped_call_synthesized_error [] (fun _ => ToolExecOutcome.exn "x") []).2
    ⟨"f", "a"⟩ rfl

/-- C4: the dispatch loop over one user turn is bounded by `maxAttempts`: for
every behaviour of the model (`respond`) that requests at least one function
call in every round, and every behaviour of the tools (`exec`),
`sendMessageToGemini` terminates (it is a total function) and returns the
exhausted-rounds fallback message. -/
theorem c4_bounded_rounds (currentSessionTools : List DynamicGeminiToolMapping)
    (respond : Nat → OutboundMessage → Option ResponseContent)
    (exec : Nat → FunctionCall → ToolExecOutcome) (userMessage : OutboundMessage)
    (h : ∀ n msg, ∃ resp, respond n msg = some resp ∧
      ∃ calls, resp.functionCalls = some calls ∧ 0 < calls.length) :
    sendMessageToGemini currentSessionTools respond exec userMessage =
      exhaustedRoundsMessage := by
  suffices main : ∀ (fuel attempt : Nat) (msg : OutboundMessage),
      maxAttempts ≤ attempt + fuel →
      sendLoop currentSessionTools respond exec msg attempt = exhaustedRoundsMessage from
    main maxAttempts 0 userMessage (by omega)
  intro fuel
  induction fuel with
  | zero =>
    intro attempt msg hle
    have hge : ¬ attempt < maxAttempts := by omega
    rw [sendLoop]
    simp [hge]
  | succ n ih =>
    intro attempt msg hle
    rw [sendLoop]
    by_cases hlt : attempt < maxAttempts
    · obtain ⟨resp, hresp, calls, hcalls, hpos⟩ := h (attempt + 1) msg
      simp only [dif_pos hlt, hresp, hcalls, hpos, if_pos]
      exact ih (attempt + 1) _ (by omega)
    · simp [hlt]

/-- C4 witness: a model that requests the call `f` every round makes the turn
end with the exhausted-rounds fallback. -/
theorem c4_bounded_rounds_witness :
    sendMessageToGemini []
      (fun _ _ => some ⟨some [⟨"f", "a"⟩], none⟩)
      (fun _ _ => ToolExecOutcome.exn "x")
      (.userText "hi") = exhaustedRoundsMessage :=
  c4_bounded_rounds [] _ _ _
    (fun _ _ => ⟨⟨some [⟨"f", "a"⟩], none⟩, rfl, [⟨"f", "a"⟩], rfl, by simp⟩)
